import Mathlib

/-!
Verification development for a PDF-ingestion web service (`src/main.py`).

The service accepts PDF uploads, extracts text natively (falling back to an
external OCR call), persists the raw bytes in a blob store and a metadata
record in a document store, and offers list/download endpoints.

Embedding conventions:
  * Python strings are `List Char`; `String.data` converts Lean literals.
  * Raw byte payloads are `List Nat`.
  * The PDF parser (PyPDF2) is external; its observable behaviour on a given
    byte payload is a `ParseResult` supplied by an oracle `parse`.
  * The OCR HTTP client's observable behaviour is an oracle
    `ocrClient : bytes → key → text`, returning the string the Python
    function `ocr_with_ocrspace` would return (empty on any failure).
  * The blob store (GridFS) and the metadata collection are modelled as
    explicit state; each write the handler performs is also recorded in an
    effect trace so that partial (crashed) executions can be discussed.
-/

/-- Whitespace predicate used by Python's `str.strip()`, restricted to the
ASCII whitespace characters (the only ones the claims exercise). -/
def pyWhitespace (c : Char) : Bool :=
  c = ' ' || c = '\t' || c = '\n' || c = '\r' || c = '\x0b' || c = '\x0c'

/-- Python `s.strip()`: drop leading and trailing whitespace. -/
def pyStrip (t : List Char) : List Char :=
  (((t.dropWhile pyWhitespace).reverse.dropWhile pyWhitespace)).reverse

/-- Python `s.rstrip()`: drop trailing whitespace only (used to state the
spec's "right-trimmed" formula, for comparison with the code). -/
def pyRStrip (t : List Char) : List Char :=
  ((t.reverse.dropWhile pyWhitespace)).reverse

/-- The three-dot truncation marker appended by the preview logic. -/
def dots : List Char := ['.', '.', '.']

/-- The preview built by `upload_document` (src/main.py line 158):
`(text[:300] + ("..." if len(text) > 300 else "")) if text else ""`. -/
def preview300 (t : List Char) : List Char :=
  if t.isEmpty then [] else t.take 300 ++ (if 300 < t.length then dots else [])

/-- The preview built by `list_documents` (src/main.py line 177):
`txt[:200] + ("..." if len(txt) > 200 else "")`. -/
def preview200 (t : List Char) : List Char :=
  t.take 200 ++ (if 200 < t.length then dots else [])

/-- Outcome of PyPDF2's per-page `extract_text()` call: a text (possibly
empty, covering `None` mapped through `or ""`), or a raised exception. -/
inductive PageOutcome where
  | ok (txt : List Char)
  | err
deriving DecidableEq

/-- Outcome of constructing `PdfReader` on the payload: a page list, or a
parse-level exception. -/
inductive ParseResult where
  | failure
  | pages (ps : List PageOutcome)
deriving DecidableEq

/-- The text a page contributes: `page.extract_text() or ""` with a failing
page's exception swallowed into `""` (src/main.py lines 69-72). -/
def pageText : PageOutcome → List Char
  | .ok t => t
  | .err => []

/-- Embedding of `extract_text_from_pdf` (src/main.py lines 64-77): collect the non-empty
page texts (`if txt: texts.append(txt)`), join them with `"\n"`, and
`strip()` the result; any parse-level failure yields `""`. -/
def extract_text_from_pdf : ParseResult → List Char
  | .failure => []
  | .pages ps =>
      pyStrip (List.intercalate ['\n'] ((ps.map pageText).filter (fun t => !t.isEmpty)))

/-- The multipart file of an upload request: payload bytes, client-supplied
filename, and declared MIME content type. -/
structure UploadFileIn where
  content : List Nat
  filename : List Char
  content_type : List Char
deriving DecidableEq

/-- A GridFS entry: `fs.put(file_bytes, filename=..., contentType=...)`. -/
structure StoredBlob where
  content : List Nat
  filename : List Char
  contentType : List Char
deriving DecidableEq

/-- A metadata record in the `document` collection, as built from
`DocumentSchema` by `upload_document` (src/main.py lines 148-156). `_id` is
the ObjectId assigned on insert, modelled as a `Nat`; `file_id` is the
(stringified) GridFS id, `none` when the field is absent or empty. -/
structure DocRecord where
  _id : Nat
  filename : List Char
  content_type : List Char
  size : Nat
  extracted_text : List Char
  ocr_used : Bool
  file_id : Option Nat
deriving DecidableEq

/-- The service state: database availability, the GridFS blob store with its
id counter, and the `document` collection with its id counter. Records and
blobs are kept in insertion order. -/
structure State where
  dbConfigured : Bool
  blobs : List (Nat × StoredBlob)
  nextBlobId : Nat
  docs : List DocRecord
  nextDocId : Nat
deriving DecidableEq

/-- The empty state of a freshly deployed service. -/
def initState (dbc : Bool) : State :=
  { dbConfigured := dbc, blobs := [], nextBlobId := 0, docs := [], nextDocId := 0 }

/-- A storage side effect of `upload_document`: the GridFS `fs.put`
(src/main.py line 145) or the metadata insert (line 156). -/
inductive Effect where
  | blobWrite (fid : Nat) (b : StoredBlob)
  | metaInsert (d : DocRecord)
deriving DecidableEq

/-- Apply one storage effect to the state. -/
def applyEffect (s : State) : Effect → State
  | .blobWrite fid b =>
      { s with blobs := s.blobs ++ [(fid, b)], nextBlobId := fid + 1 }
  | .metaInsert d =>
      { s with docs := s.docs ++ [d], nextDocId := d._id + 1 }

/-- Apply a list of storage effects from left to right. -/
def applyTrace (s : State) : List Effect → State
  | [] => s
  | e :: es => applyTrace (applyEffect s e) es

/-- Embedding of `db["document"].find_one` by `_id` (pymongo): first record with the id. -/
def find_one (docs : List DocRecord) (n : Nat) : Option DocRecord :=
  docs.find? (fun d => d._id == n)

/-- Embedding of `fs.get` (GridFS): the blob stored under the id, if any. -/
def fsGet (blobs : List (Nat × StoredBlob)) (fid : Nat) : Option StoredBlob :=
  (blobs.find? (fun p => p.1 == fid)).map (fun p => p.2)

/-- The expected MIME type, `"application/pdf"`. -/
def pdfMime : List Char := "application/pdf".data

/-- Result of the OCR decision block (src/main.py lines 124-136): the
working text, the `ocr_used` flag, whether the OCR branch was entered, and
whether `ocr_with_ocrspace` was actually invoked. -/
structure OcrDecision where
  text : List Char
  ocr_used : Bool
  entered : Bool
  called : Bool
deriving DecidableEq

/-- The OCR decision block of `upload_document` (src/main.py lines 124-136):
`text_ok = len(text.strip()) > 20`; enter the OCR branch iff `use_ocr` or
not `text_ok`; inside it, a missing (or empty, hence falsy) API key keeps
the native text silently, otherwise the OCR client is called and its output
replaces the text only when non-empty. -/
def ocrStep (ocrClient : List Nat → List Char → List Char) (file_bytes : List Nat)
    (text0 : List Char) (use_ocr : Bool) (ocr_api_key : Option (List Char)) : OcrDecision :=
  let text_ok : Bool := decide (20 < (pyStrip text0).length)
  if use_ocr || !text_ok then
    match ocr_api_key with
    | none => ⟨text0, false, true, false⟩
    | some k =>
        if k.isEmpty then ⟨text0, false, true, false⟩
        else
          let ocr_text := ocrClient file_bytes k
          if ocr_text.isEmpty then ⟨text0, false, true, true⟩
          else ⟨ocr_text, true, true, true⟩
  else ⟨text0, false, false, false⟩

/-- The JSON body of a successful upload response (`UploadResponse` model,
src/main.py lines 102-107); `id` is the stringified inserted ObjectId. -/
structure UploadResponse where
  id : Nat
  filename : List Char
  size : Nat
  ocr_used : Bool
  extracted_text_preview : List Char
deriving DecidableEq

/-- Either an `HTTPException(status, detail)` or a 200 response body. -/
inductive UploadOutcome where
  | httpError (status : Nat) (detail : List Char)
  | ok (resp : UploadResponse)
deriving DecidableEq

/-- What one call of `upload_document` produced: the HTTP outcome, the trace
of storage effects actually performed (in order), and the ghost flags of the
OCR decision. The post-state of a completed request is `applyTrace s trace`;
a crash mid-request leaves `applyTrace s` of a prefix of `trace`. -/
structure UploadResult where
  outcome : UploadOutcome
  trace : List Effect
  entered : Bool
  called : Bool
deriving DecidableEq

/-- Embedding of `upload_document` (src/main.py lines 111-165); `parse` is the PyPDF2
oracle and `ocrClient` the OCR-service oracle. Control flow: reject non-PDF
content types with 400; native extraction; OCR decision; 500 when the
database is unavailable; GridFS write; metadata insert; response with a
300-character preview. (`if not text: text = ""` on line 138 is the
identity on our representation and is omitted.) -/
def upload_document (parse : List Nat → ParseResult)
    (ocrClient : List Nat → List Char → List Char)
    (s : State) (file : UploadFileIn)
    (use_ocr : Bool) (ocr_api_key : Option (List Char)) : UploadResult :=
  if file.content_type ≠ pdfMime then
    { outcome := .httpError 400 "Only PDF files are supported".data,
      trace := [], entered := false, called := false }
  else
    let file_bytes := file.content
    let size := file_bytes.length
    let text0 := extract_text_from_pdf (parse file_bytes)
    let d := ocrStep ocrClient file_bytes text0 use_ocr ocr_api_key
    if !s.dbConfigured then
      { outcome := .httpError 500 "Database not configured".data,
        trace := [], entered := d.entered, called := d.called }
    else
      let fid := s.nextBlobId
      let blob : StoredBlob :=
        { content := file_bytes, filename := file.filename,
          contentType := file.content_type }
      let doc : DocRecord :=
        { _id := s.nextDocId, filename := file.filename,
          content_type := file.content_type, size := size,
          extracted_text := d.text, ocr_used := d.ocr_used,
          file_id := some fid }
      { outcome := .ok
          { id := s.nextDocId, filename := file.filename, size := size,
            ocr_used := d.ocr_used,
            extracted_text_preview := preview300 d.text },
        trace := [.blobWrite fid blob, .metaInsert doc],
        entered := d.entered, called := d.called }

/-- A JSON value in a serialized list item. `oidStr n` stands for the
Python `str(ObjectId)` of the id modelled by `n`. -/
inductive FieldValue where
  | str (s : List Char)
  | oidStr (n : Nat)
  | nat (n : Nat)
  | bool (b : Bool)
  | none
deriving DecidableEq

/-- Modelled from the spec: `get_documents` lives in `database.py`, which is
not part of the provided sources. Per the spec's Query Handlers section it
fetches up to `limit` records (order unspecified; we keep store order). -/
def get_documents (docs : List DocRecord) (limit : Nat) : List DocRecord :=
  docs.take limit

/-- The `serialize` closure of `list_documents` (src/main.py lines 171-179):
stringify `_id` into `id` and `file_id`, replace `extracted_text` (always a
string on our records, so the `isinstance` guard holds) by the 200-character
preview, and delete the `extracted_text` key. The resulting dict's fields
are listed in key order. -/
def serialize (d : DocRecord) : List (String × FieldValue) :=
  [ ("_id", .oidStr d._id),
    ("filename", .str d.filename),
    ("content_type", .str d.content_type),
    ("size", .nat d.size),
    ("ocr_used", .bool d.ocr_used),
    ("file_id", match d.file_id with
                | some f => .oidStr f
                | Option.none => FieldValue.none),
    ("id", .oidStr d._id),
    ("extracted_text_preview", .str (preview200 d.extracted_text)) ]

/-- Embedding of `list_documents` (src/main.py lines 168-180): the `items` array of the
response, each stored record serialized. -/
def list_documents (s : State) (limit : Nat) : List (List (String × FieldValue)) :=
  (get_documents s.docs limit).map serialize

/-- A client-supplied document id string, abstracted by whether
`ObjectId(doc_id)` parses it (every `str(ObjectId)` round-trips, so a valid
string is identified with the id it denotes). -/
inductive DocIdString where
  | valid (n : Nat)
  | malformed
deriving DecidableEq

/-- Outcome of `download_document`: the uniform 404 (`"Document not
found"`), the 500 for a missing database, or a streamed blob with its media
type and `Content-Disposition` filename. -/
inductive DownloadOutcome where
  | notFound
  | serverError
  | stream (content : List Nat) (mediaType : List Char) (filename : List Char)
deriving DecidableEq

/-- Embedding of `download_document` (src/main.py lines 183-199): 500 when the database
is unavailable; then, inside one `try`, parse the id (an `ObjectId` error is
caught), `find_one` the record, check `file_id` is present, `fs.get` the
blob (a GridFS miss raises and is caught); every failure inside the `try`
collapses to the same 404. -/
def download_document (s : State) (docId : DocIdString) : DownloadOutcome :=
  if !s.dbConfigured then .serverError
  else
    match docId with
    | .malformed => .notFound
    | .valid n =>
      match find_one s.docs n with
      | none => .notFound
      | some doc =>
        match doc.file_id with
        | none => .notFound
        | some fid =>
          match fsGet s.blobs fid with
          | none => .notFound
          | some b => .stream b.content doc.content_type doc.filename

/-- States reachable from a fresh deployment by (possibly crashed) uploads:
any prefix of an upload's effect trace may have been applied before the
process stopped. The read-only endpoints do not change the state. -/
inductive Reachable : State → Prop
  | init (dbc : Bool) : Reachable (initState dbc)
  | step {s : State} (h : Reachable s)
      (parse : List Nat → ParseResult) (ocrClient : List Nat → List Char → List Char)
      (file : UploadFileIn) (use_ocr : Bool) (ocr_api_key : Option (List Char))
      (tr rest : List Effect)
      (hpre : tr ++ rest = (upload_document parse ocrClient s file use_ocr ocr_api_key).trace) :
      Reachable (applyTrace s tr)

/-- Id-freshness of a state: every stored record id and blob id is below the
respective counter (so a fresh insert cannot collide). -/
def WellFormed (s : State) : Prop :=
  (∀ d ∈ s.docs, d._id < s.nextDocId) ∧ (∀ p ∈ s.blobs, p.1 < s.nextBlobId)

/-- Referential integrity: every metadata record's `file_id` points at a
blob present in the blob store. -/
def MetaRefsValid (s : State) : Prop :=
  ∀ d ∈ s.docs, ∀ fid, d.file_id = some fid → ∃ b, fsGet s.blobs fid = some b

/-- Written from the spec's words for the extractor's result ("the page
texts concatenated with newline separators and right-trimmed"), to be
compared with `extract_text_from_pdf`. -/
def claimedExtractResult (ps : List PageOutcome) : List Char :=
  pyRStrip (List.intercalate ['\n'] (ps.map pageText))

/-- Example PyPDF2 oracle: one page of 26 characters of native text. -/
def exParse : List Nat → ParseResult :=
  fun _ => ParseResult.pages [.ok "abcdefghijklmnopqrstuvwxyz".data]

/-- Example PyPDF2 oracle: one page of 5 characters of native text. -/
def exParseShort : List Nat → ParseResult :=
  fun _ => ParseResult.pages [.ok "short".data]

/-- Example OCR oracle returning a fixed non-empty text. -/
def exOcr : List Nat → List Char → List Char :=
  fun _ _ => "ocr output text".data

/-- Example PDF upload. -/
def exPdfFile : UploadFileIn :=
  { content := [37, 80, 68, 70], filename := "doc.pdf".data, content_type := pdfMime }

/-- Example upload with a non-PDF declared content type. -/
def exTxtFile : UploadFileIn :=
  { content := [104, 105], filename := "doc.txt".data, content_type := "text/plain".data }

/-- Example fresh state with a configured database. -/
def exState : State := initState true

/-- Example stored blob matching `exPdfFile`. -/
def exBlob : StoredBlob :=
  { content := [37, 80, 68, 70], filename := "doc.pdf".data, contentType := pdfMime }

/-- Example stored record: what uploading `exPdfFile` into `exState` with
OCR off inserts. -/
def exDoc : DocRecord :=
  { _id := 0, filename := "doc.pdf".data, content_type := pdfMime, size := 4,
    extracted_text := "abcdefghijklmnopqrstuvwxyz".data, ocr_used := false,
    file_id := some 0 }

/-- Example response of that upload. -/
def exResp : UploadResponse :=
  { id := 0, filename := "doc.pdf".data, size := 4, ocr_used := false,
    extracted_text_preview := "abcdefghijklmnopqrstuvwxyz".data }

/-- Example one-document state (after that upload). -/
def exState2 : State :=
  { dbConfigured := true, blobs := [(0, exBlob)], nextBlobId := 1,
    docs := [exDoc], nextDocId := 1 }

theorem dropWhile_idem (p : Char → Bool) (l : List Char) :
    (l.dropWhile p).dropWhile p = l.dropWhile p := by
  induction l with
  | nil => rfl
  | cons a l ih =>
    by_cases h : p a
    · simp [List.dropWhile_cons, h, ih]
    · simp [List.dropWhile_cons, h]

theorem length_dropWhile_le (p : Char → Bool) (l : List Char) :
    (l.dropWhile p).length ≤ l.length := by
  induction l with
  | nil => simp
  | cons a l ih =>
    by_cases h : p a
    · simp only [List.dropWhile_cons, h]; simpa using Nat.le_succ_of_le ih
    · simp [List.dropWhile_cons, h]

theorem dropWhile_fix_head (p : Char → Bool) (a : Char) (l : List Char)
    (h : (a :: l).dropWhile p = a :: l) : p a = false := by
  by_cases hpa : p a
  · exfalso
    rw [List.dropWhile_cons, if_pos hpa] at h
    have := length_dropWhile_le p l
    rw [h] at this
    simp at this
  · simpa using hpa

theorem rstrip_decomp (p : Char → Bool) (l : List Char) :
    ∃ t, l = (l.reverse.dropWhile p).reverse ++ t := by
  refine ⟨(l.reverse.takeWhile p).reverse, ?_⟩
  rw [← List.reverse_append (l.reverse.takeWhile p) (l.reverse.dropWhile p),
    List.takeWhile_append_dropWhile, List.reverse_reverse]

theorem pyStrip_idem (t : List Char) : pyStrip (pyStrip t) = pyStrip t := by
  have hm : (t.dropWhile pyWhitespace).dropWhile pyWhitespace = t.dropWhile pyWhitespace :=
    dropWhile_idem _ _
  have hstep1 : (pyStrip t).dropWhile pyWhitespace = pyStrip t := by
    obtain ⟨t', ht'⟩ := rstrip_decomp pyWhitespace (t.dropWhile pyWhitespace)
    cases hr : pyStrip t with
    | nil => simp [hr]
    | cons a r' =>
      have hmr : t.dropWhile pyWhitespace = a :: (r' ++ t') := by
        rw [ht']
        show pyStrip t ++ t' = a :: (r' ++ t')
        rw [hr]; simp
      have hpa : pyWhitespace a = false := by
        apply dropWhile_fix_head pyWhitespace a (r' ++ t')
        rw [← hmr]; exact hm
      rw [List.dropWhile_cons, hpa]; simp
  show (((pyStrip t).dropWhile pyWhitespace).reverse.dropWhile pyWhitespace).reverse = pyStrip t
  rw [hstep1]
  have hrev : (pyStrip t).reverse = (t.dropWhile pyWhitespace).reverse.dropWhile pyWhitespace := by
    show (((t.dropWhile pyWhitespace).reverse.dropWhile pyWhitespace).reverse).reverse = _
    rw [List.reverse_reverse]
  rw [hrev, dropWhile_idem]
  show pyStrip t = pyStrip t
  rfl

theorem extract_strip_id (pr : ParseResult) :
    pyStrip (extract_text_from_pdf pr) = extract_text_from_pdf pr := by
  cases pr with
  | failure => rfl
  | pages ps => exact pyStrip_idem _

theorem preview300_spec (t : List Char) :
    preview300 t = if 300 < t.length then t.take 300 ++ dots else t := by
  unfold preview300
  by_cases he : t.isEmpty
  · rw [List.isEmpty_iff] at he
    subst he; simp
  · simp only [he, Bool.false_eq_true, if_false]
    by_cases hl : 300 < t.length
    · simp [hl]
    · simp [hl, List.take_of_length_le (Nat.not_lt.mp hl)]

theorem preview200_spec (t : List Char) :
    preview200 t = if 200 < t.length then t.take 200 ++ dots else t := by
  unfold preview200
  by_cases hl : 200 < t.length
  · simp [hl]
  · simp [hl, List.take_of_length_le (Nat.not_lt.mp hl)]

theorem ocrStep_not_entered (oc : List Nat → List Char → List Char) (fb : List Nat)
    (t0 : List Char) (u : Bool) (k : Option (List Char))
    (h : (u || !decide (20 < (pyStrip t0).length)) = false) :
    ocrStep oc fb t0 u k = ⟨t0, false, false, false⟩ := by
  simp [ocrStep, h]

theorem ocrStep_entered_no_key (oc : List Nat → List Char → List Char) (fb : List Nat)
    (t0 : List Char) (u : Bool)
    (h : (u || !decide (20 < (pyStrip t0).length)) = true) :
    ocrStep oc fb t0 u none = ⟨t0, false, true, false⟩ := by
  simp [ocrStep, h]

theorem ocrStep_entered_key (oc : List Nat → List Char → List Char) (fb : List Nat)
    (t0 : List Char) (u : Bool) (k : List Char)
    (h : (u || !decide (20 < (pyStrip t0).length)) = true) (hk : k.isEmpty = false) :
    ocrStep oc fb t0 u (some k) =
      (if (oc fb k).isEmpty then ⟨t0, false, true, true⟩
       else ⟨oc fb k, true, true, true⟩) := by
  simp [ocrStep, h, hk]

theorem ocrStep_entered_eq (oc : List Nat → List Char → List Char) (fb : List Nat)
    (t0 : List Char) (u : Bool) (k : Option (List Char)) :
    (ocrStep oc fb t0 u k).entered = (u || !decide (20 < (pyStrip t0).length)) := by
  by_cases h : (u || !decide (20 < (pyStrip t0).length)) = true
  · rw [h]
    cases k with
    | none => rw [ocrStep_entered_no_key oc fb t0 u h]
    | some key =>
      by_cases hk : key.isEmpty
      · simp [ocrStep, h, hk]
      · rw [ocrStep_entered_key oc fb t0 u key h (by simpa using hk)]
        by_cases hoc : (oc fb key).isEmpty
        · simp [hoc]
        · simp [hoc]
  · have h' : (u || !decide (20 < (pyStrip t0).length)) = false := by simpa using h
    rw [h', ocrStep_not_entered oc fb t0 u k h']

theorem upload_not_pdf (parse : List Nat → ParseResult)
    (oc : List Nat → List Char → List Char) (s : State) (file : UploadFileIn)
    (u : Bool) (k : Option (List Char)) (h1 : file.content_type ≠ pdfMime) :
    upload_document parse oc s file u k =
      { outcome := .httpError 400 "Only PDF files are supported".data,
        trace := [], entered := false, called := false } := by
  unfold upload_document
  rw [if_pos h1]

theorem upload_no_db (parse : List Nat → ParseResult)
    (oc : List Nat → List Char → List Char) (s : State) (file : UploadFileIn)
    (u : Bool) (k : Option (List Char))
    (h1 : file.content_type = pdfMime) (h2 : s.dbConfigured = false) :
    upload_document parse oc s file u k =
      { outcome := .httpError 500 "Database not configured".data,
        trace := [],
        entered := (ocrStep oc file.content (extract_text_from_pdf (parse file.content)) u k).entered,
        called := (ocrStep oc file.content (extract_text_from_pdf (parse file.content)) u k).called } := by
  unfold upload_document
  rw [if_neg (by simp [h1]), if_pos (by simp [h2])]

theorem upload_eq (parse : List Nat → ParseResult)
    (oc : List Nat → List Char → List Char) (s : State) (file : UploadFileIn)
    (u : Bool) (k : Option (List Char))
    (h1 : file.content_type = pdfMime) (h2 : s.dbConfigured = true) :
    upload_document parse oc s file u k =
      { outcome := .ok
          { id := s.nextDocId, filename := file.filename, size := file.content.length,
            ocr_used := (ocrStep oc file.content (extract_text_from_pdf (parse file.content)) u k).ocr_used,
            extracted_text_preview :=
              preview300 (ocrStep oc file.content (extract_text_from_pdf (parse file.content)) u k).text },
        trace :=
          [.blobWrite s.nextBlobId
             { content := file.content, filename := file.filename,
               contentType := file.content_type },
           .metaInsert
             { _id := s.nextDocId, filename := file.filename,
               content_type := file.content_type, size := file.content.length,
               extracted_text :=
                 (ocrStep oc file.content (extract_text_from_pdf (parse file.content)) u k).text,
               ocr_used :=
                 (ocrStep oc file.content (extract_text_from_pdf (parse file.content)) u k).ocr_used,
               file_id := some s.nextBlobId }],
        entered := (ocrStep oc file.content (extract_text_from_pdf (parse file.content)) u k).entered,
        called := (ocrStep oc file.content (extract_text_from_pdf (parse file.content)) u k).called } := by
  unfold upload_document
  rw [if_neg (by simp [h1]), if_neg (by simp [h2])]

theorem upload_ok_config (parse : List Nat → ParseResult)
    (oc : List Nat → List Char → List Char) (s : State) (file : UploadFileIn)
    (u : Bool) (k : Option (List Char)) (resp : UploadResponse)
    (h : (upload_document parse oc s file u k).outcome = .ok resp) :
    file.content_type = pdfMime ∧ s.dbConfigured = true := by
  by_cases h1 : file.content_type = pdfMime
  · cases hb : s.dbConfigured with
    | true => exact ⟨h1, rfl⟩
    | false =>
      rw [upload_no_db parse oc s file u k h1 hb] at h
      simp at h
  · rw [upload_not_pdf parse oc s file u k h1] at h
    simp at h

theorem fsGet_append_left (l l' : List (Nat × StoredBlob)) (fid : Nat) (b : StoredBlob)
    (h : fsGet l fid = some b) : fsGet (l ++ l') fid = some b := by
  unfold fsGet at h ⊢
  rw [List.find?_append]
  cases hf : l.find? (fun p => p.1 == fid) with
  | none => rw [hf] at h; simp at h
  | some q => rw [hf] at h; simpa using h

theorem fsGet_append_fresh (l : List (Nat × StoredBlob)) (fid : Nat) (b : StoredBlob)
    (h : ∀ p ∈ l, p.1 ≠ fid) : fsGet (l ++ [(fid, b)]) fid = some b := by
  unfold fsGet
  rw [List.find?_append]
  have hl : l.find? (fun p => p.1 == fid) = none := by
    rw [List.find?_eq_none]
    intro p hp; simpa using h p hp
  simp [hl]

theorem fsGet_append_self (l : List (Nat × StoredBlob)) (fid : Nat) (b : StoredBlob) :
    ∃ c, fsGet (l ++ [(fid, b)]) fid = some c := by
  cases hf : fsGet l fid with
  | some c => exact ⟨c, fsGet_append_left l [(fid, b)] fid c hf⟩
  | none =>
    refine ⟨b, ?_⟩
    unfold fsGet at hf ⊢
    rw [List.find?_append]
    cases hl : l.find? (fun p => p.1 == fid) with
    | some q => rw [hl] at hf; simp at hf
    | none => simp

theorem find_one_fresh_append (docs : List DocRecord) (doc : DocRecord)
    (h : ∀ d ∈ docs, d._id ≠ doc._id) :
    find_one (docs ++ [doc]) doc._id = some doc := by
  unfold find_one
  rw [List.find?_append]
  have hd : docs.find? (fun d => d._id == doc._id) = none := by
    rw [List.find?_eq_none]
    intro d hdm; simpa using h d hdm
  simp [hd]

theorem find_one_none (docs : List DocRecord) (n : Nat)
    (h : ∀ d ∈ docs, d._id ≠ n) : find_one docs n = none := by
  unfold find_one
  rw [List.find?_eq_none]
  intro d hd; simpa using h d hd

theorem upload_trace_shape (parse : List Nat → ParseResult)
    (oc : List Nat → List Char → List Char) (s : State) (file : UploadFileIn)
    (u : Bool) (k : Option (List Char)) :
    (upload_document parse oc s file u k).trace = [] ∨
    ∃ blob doc,
      (upload_document parse oc s file u k).trace =
        [.blobWrite s.nextBlobId blob, .metaInsert doc] ∧
      doc.file_id = some s.nextBlobId ∧ doc._id = s.nextDocId := by
  by_cases h1 : file.content_type = pdfMime
  · cases hb : s.dbConfigured with
    | false => left; rw [upload_no_db parse oc s file u k h1 hb]
    | true =>
      right
      rw [upload_eq parse oc s file u k h1 hb]
      exact ⟨_, _, rfl, rfl, rfl⟩
  · left; rw [upload_not_pdf parse oc s file u k h1]

theorem inv_blobWrite (s : State) (b : StoredBlob)
    (hwf : WellFormed s) (href : MetaRefsValid s) :
    WellFormed (applyEffect s (.blobWrite s.nextBlobId b)) ∧
    MetaRefsValid (applyEffect s (.blobWrite s.nextBlobId b)) := by
  obtain ⟨hdocs, hblobs⟩ := hwf
  refine ⟨⟨?_, ?_⟩, ?_⟩
  · intro d hd
    simpa using hdocs d (by simpa [applyEffect] using hd)
  · intro p hp
    simp only [applyEffect, List.mem_append, List.mem_singleton] at hp
    rcases hp with hp | hp
    · have := hblobs p hp
      simp only [applyEffect]
      omega
    · subst hp; simp [applyEffect]
  · intro d hd fid hfid
    have hd' : d ∈ s.docs := by simpa [applyEffect] using hd
    obtain ⟨c, hc⟩ := href d hd' fid hfid
    exact ⟨c, fsGet_append_left s.blobs [(s.nextBlobId, b)] fid c hc⟩

theorem inv_metaInsert (s : State) (doc : DocRecord)
    (hid : doc._id = s.nextDocId)
    (href : ∀ fid, doc.file_id = some fid → ∃ b, fsGet s.blobs fid = some b)
    (hwf : WellFormed s) (hrefs : MetaRefsValid s) :
    WellFormed (applyEffect s (.metaInsert doc)) ∧
    MetaRefsValid (applyEffect s (.metaInsert doc)) := by
  obtain ⟨hdocs, hblobs⟩ := hwf
  refine ⟨⟨?_, ?_⟩, ?_⟩
  · intro d hd
    simp only [applyEffect, List.mem_append, List.mem_singleton] at hd
    rcases hd with hd | hd
    · have := hdocs d hd
      simp only [applyEffect]
      omega
    · subst hd; simp [applyEffect]
  · intro p hp
    simpa [applyEffect] using hblobs p (by simpa [applyEffect] using hp)
  · intro d hd fid hfid
    simp only [applyEffect, List.mem_append, List.mem_singleton] at hd
    rcases hd with hd | hd
    · simpa [applyEffect] using hrefs d hd fid hfid
    · subst hd
      simpa [applyEffect] using href fid hfid

theorem reachable_inv (s : State) (h : Reachable s) :
    WellFormed s ∧ MetaRefsValid s := by
  induction h with
  | init dbc =>
    constructor
    · exact ⟨by simp [initState], by simp [initState]⟩
    · intro d hd; simp [initState] at hd
  | step h parse oc file u k tr rest hpre ih =>
    rename_i s'
    obtain ⟨hwf, href⟩ := ih
    rcases upload_trace_shape parse oc s' file u k with htr | ⟨blob, doc, htr, hfid, hid⟩
    · rw [htr] at hpre
      have htrnil : tr = [] := (List.append_eq_nil.mp hpre).1
      subst htrnil
      exact ⟨hwf, href⟩
    · rw [htr] at hpre
      cases tr with
      | nil => exact ⟨hwf, href⟩
      | cons e tr' =>
        have he : e = .blobWrite s'.nextBlobId blob := (List.cons_eq_cons.mp hpre).1
        have hrest : tr' ++ rest = [.metaInsert doc] := (List.cons_eq_cons.mp hpre).2
        subst he
        cases tr' with
        | nil =>
          show WellFormed (applyTrace s' [.blobWrite s'.nextBlobId blob]) ∧ _
          exact inv_blobWrite s' blob hwf href
        | cons e' tr'' =>
          have he' : e' = .metaInsert doc := (List.cons_eq_cons.mp hrest).1
          have hrest' : tr'' ++ rest = [] := (List.cons_eq_cons.mp hrest).2
          have htr'' : tr'' = [] := (List.append_eq_nil.mp hrest').1
          subst he'
          subst htr''
          obtain ⟨hwf1, href1⟩ := inv_blobWrite s' blob hwf href
          have hid1 : doc._id = (applyEffect s' (.blobWrite s'.nextBlobId blob)).nextDocId := by
            simpa [applyEffect] using hid
          have href2 : ∀ fid, doc.file_id = some fid →
              ∃ b, fsGet (applyEffect s' (.blobWrite s'.nextBlobId blob)).blobs fid = some b := by
            intro fid hf
            rw [hfid] at hf
            cases hf
            simpa [applyEffect] using fsGet_append_self s'.blobs s'.nextBlobId blob
          exact inv_metaInsert _ doc hid1 href2 hwf1 href1

/-- Claim C10: the Text Extractor's result carries no leading or trailing
whitespace — it equals its own strip — so the upload handler's threshold
test on the stripped text is equivalent to testing the extractor's output
directly. -/
theorem claim_C10 (pr : ParseResult) :
    pyStrip (extract_text_from_pdf pr) = extract_text_from_pdf pr ∧
    (20 < (pyStrip (extract_text_from_pdf pr)).length ↔
      20 < (extract_text_from_pdf pr).length) := by
  have h := extract_strip_id pr
  exact ⟨h, by rw [h]⟩

/-- Claim C4, counterexample: the extractor's result is not, in general,
the page texts concatenated with newline separators and right-trimmed: a
leading space survives a right-trim but not the code's `strip()`, and an
empty page text contributes no separator. -/
theorem claim_C4_counterexample :
    extract_text_from_pdf (.pages [.ok " a".data, .ok "".data, .ok "b".data]) ≠
      claimedExtractResult [.ok " a".data, .ok "".data, .ok "b".data] := by
  decide

/-- Claim C4 (amended): for every byte input the Text Extractor returns a
string and never raises; any parse-level failure yields the empty string; a
failing page contributes no text and does not abort the remaining pages;
and on success the result is the non-empty page texts concatenated with
newline separators and stripped of leading and trailing whitespace. -/
theorem claim_C4 :
    extract_text_from_pdf .failure = [] ∧
    (∀ ps₁ ps₂ : List PageOutcome,
      extract_text_from_pdf (.pages (ps₁ ++ .err :: ps₂)) =
        extract_text_from_pdf (.pages (ps₁ ++ ps₂))) ∧
    (∀ ts : List (List Char),
      extract_text_from_pdf (.pages (ts.map .ok)) =
        pyStrip (List.intercalate ['\n'] (ts.filter (fun t => !t.isEmpty)))) := by
  refine ⟨rfl, ?_, ?_⟩
  · intro ps₁ ps₂
    simp [extract_text_from_pdf, pageText, List.filter_append]
  · intro ts
    have hmap : List.map (pageText ∘ PageOutcome.ok) ts = ts := by
      have hfun : (pageText ∘ PageOutcome.ok) = fun t : List Char => t := by
        funext t; rfl
      rw [hfun, List.map_id']
    simp only [extract_text_from_pdf, List.map_map]
    rw [hmap]

/-- Claim C3: an upload whose declared content type is not exactly
`application/pdf` gets the 400 client error, performs no storage effect,
and leaves the blob and metadata stores unchanged. -/
theorem claim_C3 (parse : List Nat → ParseResult)
    (oc : List Nat → List Char → List Char) (s : State) (file : UploadFileIn)
    (u : Bool) (k : Option (List Char)) (h1 : file.content_type ≠ pdfMime) :
    (upload_document parse oc s file u k).outcome =
        .httpError 400 "Only PDF files are supported".data ∧
    (upload_document parse oc s file u k).trace = [] ∧
    applyTrace s (upload_document parse oc s file u k).trace = s := by
  rw [upload_not_pdf parse oc s file u k h1]
  exact ⟨rfl, rfl, rfl⟩

/-- Claim C3, witness. -/
theorem claim_C3_witness :
    exTxtFile.content_type ≠ pdfMime ∧
    (upload_document exParse exOcr exState exTxtFile false none).outcome =
        .httpError 400 "Only PDF files are supported".data ∧
    (upload_document exParse exOcr exState exTxtFile false none).trace = [] ∧
    applyTrace exState (upload_document exParse exOcr exState exTxtFile false none).trace
      = exState :=
  ⟨by decide, claim_C3 exParse exOcr exState exTxtFile false none (by decide)⟩

/-- Claim C7: with the database configured, every way a download can fail
to resolve — malformed id, missing record, record without a blob
reference, blob fetch failure — produces the same not-found response. -/
theorem claim_C7 (s : State) (h2 : s.dbConfigured = true) :
    download_document s .malformed = .notFound ∧
    (∀ n, find_one s.docs n = none → download_document s (.valid n) = .notFound) ∧
    (∀ n doc, find_one s.docs n = some doc → doc.file_id = none →
      download_document s (.valid n) = .notFound) ∧
    (∀ n doc fid, find_one s.docs n = some doc → doc.file_id = some fid →
      fsGet s.blobs fid = none → download_document s (.valid n) = .notFound) := by
  refine ⟨?_, ?_, ?_, ?_⟩
  · simp [download_document, h2]
  · intro n hfo
    simp [download_document, h2, hfo]
  · intro n doc hfo hfid
    simp [download_document, h2, hfo, hfid]
  · intro n doc fid hfo hfid hget
    simp [download_document, h2, hfo, hfid, hget]

/-- Claim C7, witness. -/
theorem claim_C7_witness :
    exState2.dbConfigured = true ∧
    download_document exState2 .malformed = .notFound :=
  ⟨rfl, (claim_C7 exState2 rfl).1⟩

/-- Claim C5: for every successful upload, the response preview is the
stored text verbatim when it has at most 300 characters, and its first 300
characters followed by the three-dot marker otherwise. -/
theorem claim_C5 (parse : List Nat → ParseResult)
    (oc : List Nat → List Char → List Char) (s : State) (file : UploadFileIn)
    (u : Bool) (k : Option (List Char)) (resp : UploadResponse)
    (h : (upload_document parse oc s file u k).outcome = .ok resp) :
    (∃ doc, Effect.metaInsert doc ∈ (upload_document parse oc s file u k).trace) ∧
    (∀ doc, Effect.metaInsert doc ∈ (upload_document parse oc s file u k).trace →
      resp.extracted_text_preview =
        (if 300 < doc.extracted_text.length then doc.extracted_text.take 300 ++ dots
         else doc.extracted_text)) := by
  obtain ⟨h1, h2⟩ := upload_ok_config parse oc s file u k resp h
  rw [upload_eq parse oc s file u k h1 h2] at h
  have hresp :
      resp = { id := s.nextDocId, filename := file.filename, size := file.content.length,
               ocr_used := (ocrStep oc file.content (extract_text_from_pdf (parse file.content)) u k).ocr_used,
               extracted_text_preview :=
                 preview300 (ocrStep oc file.content (extract_text_from_pdf (parse file.content)) u k).text } := by
    simpa using h.symm
  subst hresp
  rw [upload_eq parse oc s file u k h1 h2]
  constructor
  · refine ⟨{ _id := s.nextDocId, filename := file.filename,
              content_type := file.content_type, size := file.content.length,
              extracted_text :=
                (ocrStep oc file.content (extract_text_from_pdf (parse file.content)) u k).text,
              ocr_used :=
                (ocrStep oc file.content (extract_text_from_pdf (parse file.content)) u k).ocr_used,
              file_id := some s.nextBlobId }, ?_⟩
    simp
  · intro doc hdoc
    simp only [List.mem_cons, List.mem_singleton] at hdoc
    rcases hdoc with hdoc | hdoc
    · exact absurd hdoc (by simp)
    · rcases hdoc with hdoc | hdoc
      · have hdoc' := (Effect.metaInsert.injEq _ _).mp hdoc
        subst hdoc'
        simpa using preview300_spec
          (ocrStep oc file.content (extract_text_from_pdf (parse file.content)) u k).text
      · simp at hdoc

/-- Claim C5, witness. -/
theorem claim_C5_witness :
    (upload_document exParse exOcr exState exPdfFile false none).outcome = .ok exResp ∧
    exResp.extracted_text_preview =
      (if 300 < exDoc.extracted_text.length then exDoc.extracted_text.take 300 ++ dots
       else exDoc.extracted_text) :=
  ⟨by decide,
   (claim_C5 exParse exOcr exState exPdfFile false none exResp (by decide)).2 exDoc (by decide)⟩

/-- Claim C6: every item the list endpoint returns is a serialized stored
record with no `extracted_text` field and an `extracted_text_preview` field
obeying the 200-character truncation rule with the three-dot marker. -/
theorem claim_C6 (s : State) (limit : Nat) (item : List (String × FieldValue))
    (hitem : item ∈ list_documents s limit) :
    ∃ d, d ∈ s.docs ∧ item = serialize d ∧
      item.lookup "extracted_text" = none ∧
      item.lookup "extracted_text_preview" =
        some (.str (if 200 < d.extracted_text.length
                    then d.extracted_text.take 200 ++ dots
                    else d.extracted_text)) := by
  unfold list_documents at hitem
  rw [List.mem_map] at hitem
  obtain ⟨d, hd, hser⟩ := hitem
  have hmem : d ∈ s.docs := List.take_subset limit s.docs hd
  subst hser
  refine ⟨d, hmem, rfl, ?_, ?_⟩
  · rfl
  · show (serialize d).lookup "extracted_text_preview"
        = some (.str (if 200 < d.extracted_text.length
                      then d.extracted_text.take 200 ++ dots
                      else d.extracted_text))
    rw [← preview200_spec]
    rfl

/-- Claim C6, witness. -/
theorem claim_C6_witness :
    serialize exDoc ∈ list_documents exState2 50 ∧
    ∃ d, d ∈ exState2.docs ∧ serialize exDoc = serialize d ∧
      (serialize exDoc).lookup "extracted_text" = none ∧
      (serialize exDoc).lookup "extracted_text_preview" =
        some (.str (if 200 < d.extracted_text.length
                    then d.extracted_text.take 200 ++ dots
                    else d.extracted_text)) :=
  ⟨by decide, claim_C6 exState2 50 (serialize exDoc) (by decide)⟩

/-- Claim C1: for a PDF upload, the OCR path is entered iff the caller set
`use_ocr` or the native text has at most 20 characters; in particular on a
native text above 20 characters with `use_ocr` unset, the OCR client is
never invoked and the response's `ocr_used` flag is false. -/
theorem claim_C1 (parse : List Nat → ParseResult)
    (oc : List Nat → List Char → List Char) (s : State) (file : UploadFileIn)
    (u : Bool) (k : Option (List Char)) (h1 : file.content_type = pdfMime) :
    ((upload_document parse oc s file u k).entered =
      (u || decide ((extract_text_from_pdf (parse file.content)).length ≤ 20))) ∧
    (20 < (extract_text_from_pdf (parse file.content)).length → u = false →
      (upload_document parse oc s file u k).called = false ∧
      ∀ resp, (upload_document parse oc s file u k).outcome = .ok resp →
        resp.ocr_used = false) := by
  have hces : pyStrip (extract_text_from_pdf (parse file.content))
      = extract_text_from_pdf (parse file.content) := extract_strip_id _
  have hb : (!decide (20 < (pyStrip (extract_text_from_pdf (parse file.content))).length))
      = decide ((extract_text_from_pdf (parse file.content)).length ≤ 20) := by
    by_cases hlt : 20 < (extract_text_from_pdf (parse file.content)).length
    · have hnle : ¬((extract_text_from_pdf (parse file.content)).length ≤ 20) := by omega
      simp [hces, hlt, hnle]
    · have hle : (extract_text_from_pdf (parse file.content)).length ≤ 20 := by omega
      simp [hces, hlt, hle]
  constructor
  · cases hdb : s.dbConfigured with
    | true =>
      rw [upload_eq parse oc s file u k h1 hdb]
      show (ocrStep oc file.content (extract_text_from_pdf (parse file.content)) u k).entered = _
      rw [ocrStep_entered_eq, hb]
    | false =>
      rw [upload_no_db parse oc s file u k h1 hdb]
      show (ocrStep oc file.content (extract_text_from_pdf (parse file.content)) u k).entered = _
      rw [ocrStep_entered_eq, hb]
  · intro hgt hu
    have hcond : (u || !decide (20 < (pyStrip (extract_text_from_pdf (parse file.content))).length))
        = false := by
      subst hu
      simp [hces, hgt]
    have hstep := ocrStep_not_entered oc file.content
      (extract_text_from_pdf (parse file.content)) u k hcond
    constructor
    · cases hdb : s.dbConfigured with
      | true =>
        rw [upload_eq parse oc s file u k h1 hdb]
        show (ocrStep oc file.content (extract_text_from_pdf (parse file.content)) u k).called = false
        rw [hstep]
      | false =>
        rw [upload_no_db parse oc s file u k h1 hdb]
        show (ocrStep oc file.content (extract_text_from_pdf (parse file.content)) u k).called = false
        rw [hstep]
    · intro resp hresp
      obtain ⟨_, hdb⟩ := upload_ok_config parse oc s file u k resp hresp
      rw [upload_eq parse oc s file u k h1 hdb] at hresp
      have hresp' :
          resp = { id := s.nextDocId, filename := file.filename, size := file.content.length,
                   ocr_used := (ocrStep oc file.content (extract_text_from_pdf (parse file.content)) u k).ocr_used,
                   extracted_text_preview :=
                     preview300 (ocrStep oc file.content (extract_text_from_pdf (parse file.content)) u k).text } := by
        simpa using hresp.symm
      subst hresp'
      show (ocrStep oc file.content (extract_text_from_pdf (parse file.content)) u k).ocr_used = false
      rw [hstep]

/-- Claim C1, witness (26-character native text, `use_ocr=false`). -/
theorem claim_C1_witness :
    exPdfFile.content_type = pdfMime ∧
    20 < (extract_text_from_pdf (exParse exPdfFile.content)).length ∧
    (upload_document exParse exOcr exState exPdfFile false none).entered = false ∧
    (upload_document exParse exOcr exState exPdfFile false none).called = false := by
  have h := claim_C1 exParse exOcr exState exPdfFile false none rfl
  refine ⟨rfl, by decide, ?_, (h.2 (by decide) rfl).1⟩
  rw [h.1]
  decide

/-- Claim C2: within the OCR path, a missing API key keeps the native text
(even empty) with `ocr_used=false` and no error; with a key, non-empty OCR
output replaces the stored text and sets `ocr_used=true`, while empty OCR
output keeps the native text and `ocr_used=false`. -/
theorem claim_C2 (parse : List Nat → ParseResult)
    (oc : List Nat → List Char → List Char) (s : State) (file : UploadFileIn)
    (u : Bool) (k : Option (List Char))
    (h1 : file.content_type = pdfMime) (h2 : s.dbConfigured = true)
    (henter : u = true ∨ (extract_text_from_pdf (parse file.content)).length ≤ 20) :
    (k = none →
      (∃ resp, (upload_document parse oc s file u k).outcome = .ok resp ∧
        resp.ocr_used = false) ∧
      (∃ doc, Effect.metaInsert doc ∈ (upload_document parse oc s file u k).trace ∧
        doc.extracted_text = extract_text_from_pdf (parse file.content) ∧
        doc.ocr_used = false)) ∧
    (∀ key, k = some key → key ≠ [] → oc file.content key ≠ [] →
      (∃ resp, (upload_document parse oc s file u k).outcome = .ok resp ∧
        resp.ocr_used = true) ∧
      (∃ doc, Effect.metaInsert doc ∈ (upload_document parse oc s file u k).trace ∧
        doc.extracted_text = oc file.content key ∧
        doc.ocr_used = true)) ∧
    (∀ key, k = some key → key ≠ [] → oc file.content key = [] →
      (∃ resp, (upload_document parse oc s file u k).outcome = .ok resp ∧
        resp.ocr_used = false) ∧
      (∃ doc, Effect.metaInsert doc ∈ (upload_document parse oc s file u k).trace ∧
        doc.extracted_text = extract_text_from_pdf (parse file.content) ∧
        doc.ocr_used = false)) := by
  have hces : pyStrip (extract_text_from_pdf (parse file.content))
      = extract_text_from_pdf (parse file.content) := extract_strip_id _
  have hcond : (u || !decide (20 < (pyStrip (extract_text_from_pdf (parse file.content))).length))
      = true := by
    rcases henter with hu | hle
    · simp [hu]
    · have : ¬(20 < (extract_text_from_pdf (parse file.content)).length) := by omega
      simp [hces, this]
  refine ⟨?_, ?_, ?_⟩
  · intro hk
    subst hk
    have hstep := ocrStep_entered_no_key oc file.content
      (extract_text_from_pdf (parse file.content)) u hcond
    rw [upload_eq parse oc s file u none h1 h2]
    constructor
    · exact ⟨_, rfl, by rw [hstep]⟩
    · refine ⟨{ _id := s.nextDocId, filename := file.filename,
                content_type := file.content_type, size := file.content.length,
                extracted_text :=
                  (ocrStep oc file.content (extract_text_from_pdf (parse file.content)) u none).text,
                ocr_used :=
                  (ocrStep oc file.content (extract_text_from_pdf (parse file.content)) u none).ocr_used,
                file_id := some s.nextBlobId }, by simp, ?_, ?_⟩ <;> rw [hstep]
  · intro key hk hkey hoc
    subst hk
    have hkey' : key.isEmpty = false := by simpa using hkey
    have hoc' : (oc file.content key).isEmpty = false := by simpa using hoc
    have hstep := ocrStep_entered_key oc file.content
      (extract_text_from_pdf (parse file.content)) u key hcond hkey'
    rw [hoc'] at hstep
    simp only [Bool.false_eq_true, if_false] at hstep
    rw [upload_eq parse oc s file u (some key) h1 h2]
    constructor
    · exact ⟨_, rfl, by rw [hstep]⟩
    · refine ⟨{ _id := s.nextDocId, filename := file.filename,
                content_type := file.content_type, size := file.content.length,
                extracted_text :=
                  (ocrStep oc file.content (extract_text_from_pdf (parse file.content)) u (some key)).text,
                ocr_used :=
                  (ocrStep oc file.content (extract_text_from_pdf (parse file.content)) u (some key)).ocr_used,
                file_id := some s.nextBlobId }, by simp, ?_, ?_⟩ <;> rw [hstep]
  · intro key hk hkey hoc
    subst hk
    have hkey' : key.isEmpty = false := by simpa using hkey
    have hoc' : (oc file.content key).isEmpty = true := by simp [hoc]
    have hstep := ocrStep_entered_key oc file.content
      (extract_text_from_pdf (parse file.content)) u key hcond hkey'
    rw [hoc'] at hstep
    simp only [if_true] at hstep
    rw [upload_eq parse oc s file u (some key) h1 h2]
    constructor
    · exact ⟨_, rfl, by rw [hstep]⟩
    · refine ⟨{ _id := s.nextDocId, filename := file.filename,
                content_type := file.content_type, size := file.content.length,
                extracted_text :=
                  (ocrStep oc file.content (extract_text_from_pdf (parse file.content)) u (some key)).text,
                ocr_used :=
                  (ocrStep oc file.content (extract_text_from_pdf (parse file.content)) u (some key)).ocr_used,
                file_id := some s.nextBlobId }, by simp, ?_, ?_⟩ <;> rw [hstep]

/-- Claim C2, witness (5-character native text enters the OCR path; a key
is supplied and the OCR client returns non-empty text). -/
theorem claim_C2_witness :
    exPdfFile.content_type = pdfMime ∧ exState.dbConfigured = true ∧
    (false = true ∨ (extract_text_from_pdf (exParseShort exPdfFile.content)).length ≤ 20) ∧
    "key".data ≠ ([] : List Char) ∧ exOcr exPdfFile.content "key".data ≠ [] ∧
    (∃ resp,
      (upload_document exParseShort exOcr exState exPdfFile false (some "key".data)).outcome
        = .ok resp ∧ resp.ocr_used = true) ∧
    (∃ doc,
      Effect.metaInsert doc ∈
        (upload_document exParseShort exOcr exState exPdfFile false (some "key".data)).trace ∧
      doc.extracted_text = exOcr exPdfFile.content "key".data ∧
      doc.ocr_used = true) := by
  have h := (claim_C2 exParseShort exOcr exState exPdfFile false (some "key".data)
    rfl rfl (Or.inr (by decide))).2.1 "key".data rfl (by decide) (by decide)
  exact ⟨rfl, rfl, Or.inr (by decide), by decide, by decide, h.1, h.2⟩

/-- Claim C9: every upload that reaches persistence writes the raw bytes to
the blob store (unconditionally) strictly before the metadata insert, and
the inserted record's `file_id` refers to that completed blob write; in
every reachable state — including states left by a crash between the two
writes — no metadata record points at a blob id that was never written. -/
theorem claim_C9 :
    (∀ (parse : List Nat → ParseResult) (oc : List Nat → List Char → List Char)
      (s : State) (file : UploadFileIn) (u : Bool) (k : Option (List Char))
      (resp : UploadResponse),
      (upload_document parse oc s file u k).outcome = .ok resp →
      ∃ blob doc,
        (upload_document parse oc s file u k).trace =
          [.blobWrite s.nextBlobId blob, .metaInsert doc] ∧
        blob.content = file.content ∧ doc.file_id = some s.nextBlobId) ∧
    (∀ s : State, Reachable s → MetaRefsValid s) := by
  constructor
  · intro parse oc s file u k resp h
    obtain ⟨h1, h2⟩ := upload_ok_config parse oc s file u k resp h
    rw [upload_eq parse oc s file u k h1 h2]
    exact ⟨_, _, rfl, rfl, rfl⟩
  · intro s h
    exact (reachable_inv s h).2

/-- Claim C9, witness. -/
theorem claim_C9_witness :
    (upload_document exParse exOcr exState exPdfFile false none).outcome = .ok exResp ∧
    (∃ blob doc,
      (upload_document exParse exOcr exState exPdfFile false none).trace =
        [.blobWrite exState.nextBlobId blob, .metaInsert doc] ∧
      blob.content = exPdfFile.content ∧ doc.file_id = some exState.nextBlobId) ∧
    MetaRefsValid exState :=
  ⟨by decide,
   claim_C9.1 exParse exOcr exState exPdfFile false none exResp (by decide),
   claim_C9.2 exState (Reachable.init true)⟩

/-- Claim C8: downloading the identifier a successful upload returned, with
no intervening writes, streams bytes identical to the uploaded payload with
the record's stored content type; downloading an identifier no record
carries returns not-found. -/
theorem claim_C8 :
    (∀ (parse : List Nat → ParseResult) (oc : List Nat → List Char → List Char)
      (s : State) (file : UploadFileIn) (u : Bool) (k : Option (List Char))
      (resp : UploadResponse),
      Reachable s →
      (upload_document parse oc s file u k).outcome = .ok resp →
      download_document
          (applyTrace s (upload_document parse oc s file u k).trace)
          (.valid resp.id) =
        .stream file.content file.content_type file.filename) ∧
    (∀ (s : State) (n : Nat), s.dbConfigured = true →
      (∀ d ∈ s.docs, d._id ≠ n) →
      download_document s (.valid n) = .notFound) := by
  constructor
  · intro parse oc s file u k resp hreach h
    obtain ⟨h1, h2⟩ := upload_ok_config parse oc s file u k resp h
    obtain ⟨⟨hdocs, hblobs⟩, _⟩ := reachable_inv s hreach
    rw [upload_eq parse oc s file u k h1 h2] at h
    have hresp :
        resp = { id := s.nextDocId, filename := file.filename, size := file.content.length,
                 ocr_used := (ocrStep oc file.content (extract_text_from_pdf (parse file.content)) u k).ocr_used,
                 extracted_text_preview :=
                   preview300 (ocrStep oc file.content (extract_text_from_pdf (parse file.content)) u k).text } := by
      simpa using h.symm
    subst hresp
    rw [upload_eq parse oc s file u k h1 h2]
    have hfo : find_one (s.docs ++
        [{ _id := s.nextDocId, filename := file.filename,
           content_type := file.content_type, size := file.content.length,
           extracted_text :=
             (ocrStep oc file.content (extract_text_from_pdf (parse file.content)) u k).text,
           ocr_used :=
             (ocrStep oc file.content (extract_text_from_pdf (parse file.content)) u k).ocr_used,
           file_id := some s.nextBlobId }]) s.nextDocId =
        some { _id := s.nextDocId, filename := file.filename,
               content_type := file.content_type, size := file.content.length,
               extracted_text :=
                 (ocrStep oc file.content (extract_text_from_pdf (parse file.content)) u k).text,
               ocr_used :=
                 (ocrStep oc file.content (extract_text_from_pdf (parse file.content)) u k).ocr_used,
               file_id := some s.nextBlobId } :=
      find_one_fresh_append s.docs _ (fun d hd => Nat.ne_of_lt (hdocs d hd))
    have hget : fsGet (s.blobs ++
        [(s.nextBlobId,
          { content := file.content, filename := file.filename,
            contentType := file.content_type })]) s.nextBlobId =
        some { content := file.content, filename := file.filename,
               contentType := file.content_type } :=
      fsGet_append_fresh s.blobs s.nextBlobId _ (fun p hp => Nat.ne_of_lt (hblobs p hp))
    show download_document
        (applyEffect (applyEffect s (.blobWrite s.nextBlobId
          { content := file.content, filename := file.filename,
            contentType := file.content_type }))
          (.metaInsert
            { _id := s.nextDocId, filename := file.filename,
              content_type := file.content_type, size := file.content.length,
              extracted_text :=
                (ocrStep oc file.content (extract_text_from_pdf (parse file.content)) u k).text,
              ocr_used :=
                (ocrStep oc file.content (extract_text_from_pdf (parse file.content)) u k).ocr_used,
              file_id := some s.nextBlobId }))
        (.valid s.nextDocId) = _
    simp only [download_document, applyEffect, h2, Bool.not_true, Bool.false_eq_true,
      if_false, hfo, hget]
  · intro s n h2 hfresh
    have hfo : find_one s.docs n = none := find_one_none s.docs n hfresh
    simp [download_document, h2, hfo]

/-- Claim C8, witness. -/
theorem claim_C8_witness :
    Reachable exState ∧
    (upload_document exParse exOcr exState exPdfFile false none).outcome = .ok exResp ∧
    download_document
        (applyTrace exState (upload_document exParse exOcr exState exPdfFile false none).trace)
        (.valid exResp.id) =
      .stream exPdfFile.content exPdfFile.content_type exPdfFile.filename :=
  ⟨Reachable.init true, by decide,
   claim_C8.1 exParse exOcr exState exPdfFile false none exResp (Reachable.init true) (by decide)⟩
